import Mathlib

/-!
Shallow embedding of `Estar.py`, a single-site web-novel archiver, together
with proofs about its title extraction, image resolution and pagination loop.
Strings are modelled as `List Char` (Python strings are sequences of code
points), effectful collaborators (HTTP, filesystem) as explicit oracles.
-/

namespace Estar

/-! ### String primitives modelling the Python built-ins used by the program -/

/-- Whitespace removed by Python `str.strip()` (the ASCII whitespace set). -/
def pySpace (c : Char) : Bool :=
  c = ' ' || c = '\t' || c = '\n' || c = '\r' || c = '\x0b' || c = '\x0c'

/-- Python `s.strip()`: remove leading and trailing whitespace. -/
def pyStrip (l : List Char) : List Char :=
  (l.dropWhile pySpace).rdropWhile pySpace

/-- Python `s.split(sep)[0]` for non-empty `sep`: the part of `s` strictly
before the first occurrence of `sep`, or all of `s` when `sep` does not
occur in it. -/
def splitFirst : List Char → List Char → List Char
  | [], _ => []
  | c :: cs, sep => if sep.isPrefixOf (c :: cs) then [] else c :: splitFirst cs sep

/-- Python `needle in hay` on strings: substring containment. -/
def containsSub : List Char → List Char → Bool
  | needle, [] => needle.isEmpty
  | needle, h :: t => needle.isPrefixOf (h :: t) || containsSub needle t

/-- Worker for `pyReplace`, structurally recursive on a fuel argument so that
it evaluates inside the kernel; one unit of fuel is spent per character of
the scanned string, so `fuel = s.length` always suffices. -/
def pyReplaceFuel : Nat → List Char → List Char → List Char → List Char
  | _, [], _, _ => []
  | 0, s, _, _ => s
  | fuel + 1, c :: cs, old, new =>
    if old ≠ [] ∧ old.isPrefixOf (c :: cs) then
      new ++ pyReplaceFuel fuel ((c :: cs).drop old.length) old new
    else
      c :: pyReplaceFuel fuel cs old new

/-- Python `s.replace(old, new)` for non-empty `old`: a single left-to-right
pass replacing non-overlapping occurrences; replacement text is not
rescanned (so the result may contain fresh occurrences of `old`). -/
def pyReplace (s old new : List Char) : List Char :=
  pyReplaceFuel s.length s old new

/-! ### `extract_story_title` (Estar.py lines 57-63) -/

/-- The `【本文】` marker stripped first by `extract_story_title`. -/
def marker : List Char := "【本文】".data

/-- The delimiter list of `extract_story_title`, in source order. -/
def delimiters : List (List Char) :=
  ["|".data, "｜".data, " - 小説投稿エブリスタ".data, "ページ".data]

/-- One iteration of the delimiter loop:
`if delimiter in title: title = title.split(delimiter)[0].strip()`. -/
def stepDelim (t d : List Char) : List Char :=
  if containsSub d t then pyStrip (splitFirst t d) else t

/-- `extract_story_title(page_title)`: remove the marker, strip, then run the
delimiter loop over all four delimiters in order. -/
def extract_story_title (page_title : List Char) : List Char :=
  delimiters.foldl stepDelim (pyStrip (pyReplace page_title marker []))

/-- The spec's reading of title extraction: scan the delimiters in priority
order, truncate at the FIRST delimiter found, and apply no further
delimiter afterwards. -/
def extract_title_spec (page_title : List Char) : List Char :=
  let t := pyStrip (pyReplace page_title marker [])
  match delimiters.find? (fun d => containsSub d t) with
  | some d => pyStrip (splitFirst t d)
  | none => t

/-! ### `download_image` (Estar.py lines 38-54) -/

/-- `os.path.basename` on a URL/posix path: the segment after the last `/`. -/
def basename (l : List Char) : List Char :=
  l.foldl (fun acc c => if c = '/' then [] else acc ++ [c]) []

/-- The placeholder returned by `download_image` on any failure:
`"[Failed to download: " + os.path.basename(img_url) + "]"`. -/
def failedPlaceholder (img_url : List Char) : List Char :=
  "[Failed to download: ".data ++ basename img_url ++ "]".data

/-- The filename `download_image` resolves a URL to:
`os.path.basename(img_url.split('?')[0])`. -/
def resolvedFilename (img_url : List Char) : List Char :=
  basename (splitFirst img_url ['?'])

/-- `download_image(img_url, dest_folder)`. The destination folder's contents
are the list `fs` of filenames present; `fetchOk` models whether
`requests.get(clean_url)` + `raise_for_status()` succeeds and `writeOk`
whether `open(filepath, 'wb')` succeeds (on open failure no file is
created). Returns the string result, the folder contents afterwards, and
how many network fetches were performed. The whole body sits inside
`try/except Exception`, so the function never raises: every failure path
returns the placeholder instead. -/
def download_image (fetchOk writeOk : Bool) (img_url : List Char)
    (fs : List (List Char)) : List Char × List (List Char) × Nat :=
  let filename := resolvedFilename img_url
  if fs.contains filename then
    (filename, fs, 0)
  else if fetchOk = false then
    (failedPlaceholder img_url, fs, 1)
  else if writeOk = false then
    (failedPlaceholder img_url, fs, 1)
  else
    (filename, filename :: fs, 1)

/-! ### The pagination loop of `scrape_story` (Estar.py lines 92-158) -/

/-- What the network and parser yield for one requested page:
either a `requests.RequestException` during the fetch, or a parsed page
with: whether `soup.find("div", class_="mainBody")` succeeded, the
normalized content `body.get_text(separator="\n", strip=True)`, and
whether a generic exception (caught by `except Exception: continue`) is
raised while processing the page after the stop-condition checks and
before the artifact write completes. -/
inductive PageOutcome where
  | netErr : PageOutcome
  | page (hasBody : Bool) (content : List Char) (procErr : Bool) : PageOutcome
deriving DecidableEq

/-- Why the loop `break`s. -/
inductive StopReason where
  | noBody | duplicateContent | emptyPage | networkError
deriving DecidableEq

/-- State of the pagination loop: `last_text`, `pages_scraped`, the page
numbers whose `page_NNN.txt` artifact has been written (in order), the
total seconds slept, and whether a `break` has fired. -/
structure LoopState where
  lastText : Option (List Char)
  pagesScraped : Nat
  artifacts : List Nat
  sleptSeconds : ℚ
  stopped : Option StopReason
deriving DecidableEq

/-- Loop state before the first iteration: `last_text = None`,
`pages_scraped = 0`. -/
def initState : LoopState :=
  { lastText := none, pagesScraped := 0, artifacts := [], sleptSeconds := 0,
    stopped := none }

/-- The literal `0.5` in `time.sleep(0.5)` (Estar.py line 151). -/
def perPageSleep : ℚ := 1 / 2

/-- One iteration of the `for page in range(1, total_pages + 3)` body on page
number `p`, given the oracle outcome `o` for that page. Check order follows
the source: fetch error, missing body, duplicate content, empty content,
then image resolution + artifact write + counter/`last_text` update +
sleep; a generic processing error skips all the updates and continues. -/
def stepPage (p : Nat) (o : PageOutcome) (s : LoopState) : LoopState :=
  match o with
  | .netErr => { s with stopped := some .networkError }
  | .page hasBody content procErr =>
    if hasBody = false then
      { s with stopped := some .noBody }
    else if s.lastText = some content then
      { s with stopped := some .duplicateContent }
    else if pyStrip content = [] then
      { s with stopped := some .emptyPage }
    else if procErr then
      s
    else
      { lastText := some content, pagesScraped := s.pagesScraped + 1,
        artifacts := s.artifacts ++ [p], sleptSeconds := s.sleptSeconds + perPageSleep,
        stopped := none }

/-- Run the loop body over the remaining page numbers, halting as soon as a
`break` has fired. -/
def runPages (oracle : Nat → PageOutcome) : List Nat → LoopState → LoopState
  | [], s => s
  | p :: ps, s =>
    if s.stopped.isSome then s
    else runPages oracle ps (stepPage p (oracle p) s)

/-- The page numbers visited by `for page in range(1, total_pages + 3)`:
`1, 2, ..., total_pages + 2`. -/
def pageList (total_pages : Nat) : List Nat :=
  List.range' 1 (total_pages + 2)

/-- What `scrape_story` reports: whether it returned `True`, the final
`pages_scraped` it prints, and the artifacts written. -/
structure RunReport where
  success : Bool
  pagesScraped : Nat
  artifacts : List Nat
deriving DecidableEq

/-- `scrape_story(story_id)`. `setup` is `none` when the pre-loop phase
(`get_total_pages` or the page-1 title fetch) raises — the outer
`except Exception` then returns `False` — and `some n` when it yields a
declared total page count `n`. All exceptions inside the loop are caught
there, so whenever setup succeeds the function runs the loop, prints its
counters and returns `True`. -/
def scrape_story (setup : Option Nat) (oracle : Nat → PageOutcome) : RunReport :=
  match setup with
  | none => { success := false, pagesScraped := 0, artifacts := [] }
  | some n =>
    let st := runPages oracle (pageList n) initState
    { success := true, pagesScraped := st.pagesScraped, artifacts := st.artifacts }

/-! ### Command-line surface (Estar.py lines 171-188) -/

/-- The argparse default for `--delay` (`default=0.5`). -/
def defaultDelay : ℚ := 1 / 2

/-- The value argparse assigns to `args.delay`: the flag's value when given,
otherwise the default `0.5`. -/
def parsedDelay (arg : Option ℚ) : ℚ :=
  arg.getD defaultDelay

/-- The `__main__` block after a digit-valid story id: argparse parses
`--delay` into `delayArg`, then calls `scrape_story(args.story_id)` —
without passing the delay — and exits `0` iff it returned `True`. -/
def mainRun (delayArg : Option ℚ) (setup : Option Nat)
    (oracle : Nat → PageOutcome) : RunReport × Nat :=
  let _ := parsedDelay delayArg
  let report := scrape_story setup oracle
  (report, if report.success then 0 else 1)

/-! ### Lemmas about the pagination loop -/

/-- Once a `break` has fired, the loop processes no further page. -/
lemma runPages_stopped_eq (oracle : Nat → PageOutcome) (l : List Nat) (s : LoopState)
    (h : s.stopped.isSome = true) : runPages oracle l s = s := by
  cases l with
  | nil => rfl
  | cons p ps => simp [runPages, h]

/-- The loop only consults the oracle on the pages of its page list. -/
lemma runPages_congr (o1 o2 : Nat → PageOutcome) :
    ∀ (l : List Nat) (s : LoopState), (∀ p ∈ l, o1 p = o2 p) →
      runPages o1 l s = runPages o2 l s := by
  intro l
  induction l with
  | nil => intro s _; rfl
  | cons p ps ih =>
    intro s h
    by_cases hs : s.stopped.isSome = true
    · simp [runPages, hs]
    · simp only [runPages, hs, if_false]
      rw [h p (List.mem_cons_self p ps)]
      exact ih _ (fun q hq => h q (List.mem_cons_of_mem _ hq))

/-- Each loop iteration preserves `pages_scraped = number of artifacts`. -/
lemma stepPage_count (p : Nat) (o : PageOutcome) (s : LoopState)
    (h : s.artifacts.length = s.pagesScraped) :
    (stepPage p o s).artifacts.length = (stepPage p o s).pagesScraped := by
  cases o with
  | netErr => simpa [stepPage] using h
  | page hb c e =>
    simp only [stepPage]
    split_ifs <;> simp [h]

/-- The whole loop preserves `pages_scraped = number of artifacts`. -/
lemma runPages_count (oracle : Nat → PageOutcome) :
    ∀ (l : List Nat) (s : LoopState), s.artifacts.length = s.pagesScraped →
      (runPages oracle l s).artifacts.length = (runPages oracle l s).pagesScraped := by
  intro l
  induction l with
  | nil => intro s h; exact h
  | cons p ps ih =>
    intro s h
    by_cases hs : s.stopped.isSome = true
    · simpa [runPages, hs] using h
    · simp only [runPages, hs, if_false]
      exact ih _ (stepPage_count p (oracle p) s h)

/-! ### C1: duplicate content stops the loop and writes no artifact -/

/-- C1. When the loop reaches page `p` not yet stopped, and the page parses to
a body whose normalized content is byte-for-byte equal to the content
`last_text` of the immediately preceding successfully-scraped page, the loop
stops with the duplicate-content reason and the state is otherwise
unchanged — in particular no artifact is written for page `p` and no later
page is processed. -/
theorem duplicate_content_stops_without_artifact
    (oracle : Nat → PageOutcome) (p : Nat) (ps : List Nat) (s : LoopState)
    (c : List Char) (e : Bool)
    (hrun : s.stopped = none) (hlast : s.lastText = some c)
    (horacle : oracle p = .page true c e) :
    runPages oracle (p :: ps) s = { s with stopped := some .duplicateContent } := by
  have h1 : ¬ s.stopped.isSome = true := by simp [hrun]
  have hstep : stepPage p (oracle p) s = { s with stopped := some .duplicateContent } := by
    rw [horacle]
    simp [stepPage, hlast]
  rw [runPages, if_neg h1, hstep]
  exact runPages_stopped_eq _ _ _ (by simp)

/-- Witness for C1 at a concrete state: page 2 echoes the content `"a"` of the
already-written page 1 and the loop stops with `duplicateContent`, leaving
`artifacts = [1]`. -/
theorem duplicate_content_stops_without_artifact_witness :
    runPages (fun _ => .page true "a".data false) [2]
      { lastText := some "a".data, pagesScraped := 1, artifacts := [1],
        sleptSeconds := 0 + perPageSleep, stopped := none } =
    { lastText := some "a".data, pagesScraped := 1, artifacts := [1],
      sleptSeconds := 0 + perPageSleep, stopped := some .duplicateContent } :=
  duplicate_content_stops_without_artifact
    (fun _ => .page true "a".data false) 2 [] _ "a".data false rfl rfl rfl

/-! ### C2: the cursor ranges over pages 1 .. total + 2 -/

/-- C2. The page list of a run with declared total `n` is exactly the interval
`[1, n + 2]`, and the loop's behaviour depends only on the oracle's answers
inside that interval: no page outside it is ever fetched. -/
theorem overscan_window_exact
    (n : Nat) (o1 o2 : Nat → PageOutcome) (s : LoopState)
    (h : ∀ p, 1 ≤ p → p ≤ n + 2 → o1 p = o2 p) :
    (∀ p, p ∈ pageList n ↔ (1 ≤ p ∧ p ≤ n + 2)) ∧
      runPages o1 (pageList n) s = runPages o2 (pageList n) s := by
  constructor
  · intro p
    simp only [pageList, List.mem_range'_1]
    omega
  · refine runPages_congr o1 o2 _ s (fun p hp => ?_)
    simp only [pageList, List.mem_range'_1] at hp
    exact h p (by omega) (by omega)

/-- Witness for C2 at `n = 1` with two oracles agreeing on `[1, 3]`. -/
theorem overscan_window_exact_witness :
    (∀ p, p ∈ pageList 1 ↔ (1 ≤ p ∧ p ≤ 1 + 2)) ∧
      runPages (fun _ => .netErr) (pageList 1) initState =
        runPages (fun p => if p ≤ 3 then .netErr else .page true [] false)
          (pageList 1) initState :=
  overscan_window_exact 1 _ _ initState
    (fun p _ hp => by simp [if_pos hp])

/-! ### C9: the scraped-pages counter counts exactly the written artifacts -/

/-- C9. The counter starts at `0` alongside an empty artifact list, every loop
iteration keeps `pages_scraped` equal to the number of artifacts written so
far (it is bumped exactly by the artifact write and untouched by stop
conditions and caught per-page errors), and the count `scrape_story`
reports at the end equals the number of artifacts written in the run. -/
theorem pages_scraped_equals_artifacts
    (oracle : Nat → PageOutcome) (setup : Option Nat) (l : List Nat) (s : LoopState)
    (h : s.artifacts.length = s.pagesScraped) :
    initState.pagesScraped = 0 ∧ initState.artifacts = [] ∧
    (runPages oracle l s).artifacts.length = (runPages oracle l s).pagesScraped ∧
    (scrape_story setup oracle).pagesScraped =
      (scrape_story setup oracle).artifacts.length := by
  refine ⟨rfl, rfl, runPages_count oracle l s h, ?_⟩
  cases setup with
  | none => rfl
  | some n => exact (runPages_count oracle (pageList n) initState rfl).symm

/-- Witness for C9 on a concrete mid-run state with one artifact written. -/
theorem pages_scraped_equals_artifacts_witness :
    initState.pagesScraped = 0 ∧ initState.artifacts = [] ∧
    (runPages (fun _ => .netErr) [2]
      { lastText := some "a".data, pagesScraped := 1, artifacts := [1],
        sleptSeconds := 0 + perPageSleep, stopped := none }).artifacts.length =
    (runPages (fun _ => .netErr) [2]
      { lastText := some "a".data, pagesScraped := 1, artifacts := [1],
        sleptSeconds := 0 + perPageSleep, stopped := none }).pagesScraped ∧
    (scrape_story (some 0) (fun _ => .netErr)).pagesScraped =
      (scrape_story (some 0) (fun _ => .netErr)).artifacts.length :=
  pages_scraped_equals_artifacts (fun _ => .netErr) (some 0) [2] _ rfl

/-! ### C10: a network failure in the loop is not fatal -/

/-- C10. A `requests.RequestException` while fetching a page — here already on
page 1, so zero pages were scraped — makes the loop `break` with the
network-error reason, yet `scrape_story` still returns `True` and the
process exits with status `0`. -/
theorem network_error_in_loop_not_fatal
    (n : Nat) (oracle : Nat → PageOutcome) (delayArg : Option ℚ)
    (h : oracle 1 = .netErr) :
    (runPages oracle (pageList n) initState).stopped = some .networkError ∧
    (runPages oracle (pageList n) initState).pagesScraped = 0 ∧
    (scrape_story (some n) oracle).success = true ∧
    (mainRun delayArg (some n) oracle).2 = 0 := by
  have hl : pageList n = 1 :: List.range' 2 (n + 1) := by
    show List.range' 1 (n + 1 + 1) = _
    rw [List.range'_succ]
  have hrun : runPages oracle (pageList n) initState =
      { initState with stopped := some .networkError } := by
    rw [hl, runPages, if_neg (by simp [initState]), h]
    show runPages oracle _ { initState with stopped := some .networkError } = _
    exact runPages_stopped_eq _ _ _ (by simp)
  refine ⟨by rw [hrun], by rw [hrun]; rfl, rfl, rfl⟩

/-- Witness for C10: the network fails on every page of a 0-page story. -/
theorem network_error_in_loop_not_fatal_witness :
    (runPages (fun _ => .netErr) (pageList 0) initState).stopped =
      some .networkError ∧
    (runPages (fun _ => .netErr) (pageList 0) initState).pagesScraped = 0 ∧
    (scrape_story (some 0) (fun _ => .netErr)).success = true ∧
    (mainRun none (some 0) (fun _ => .netErr)).2 = 0 :=
  network_error_in_loop_not_fatal 0 (fun _ => .netErr) none rfl

/-! ### C3: artifact numbering -/

/-- Oracle for a declared-3-page story whose page 2 hits a caught generic
processing error: pages 1 and 3 have distinct content, page 4 echoes
page 3. -/
def gapOracle : Nat → PageOutcome
  | 2 => .page true "b".data true
  | 3 => .page true "c".data false
  | 4 => .page true "c".data false
  | _ => .page true "a".data false

/-- C3 counterexample. With `gapOracle` the run writes `page_001.txt` and
`page_003.txt` and nothing else: artifact numbers are the cursor values, so
the caught per-page error on page 2 leaves a gap and the artifact set is
NOT numbered contiguously from 1, contrary to the claim. -/
theorem artifact_numbering_gap_counterexample :
    (scrape_story (some 3) gapOracle).artifacts = [1, 3] ∧
    (scrape_story (some 3) gapOracle).pagesScraped = 2 ∧
    (scrape_story (some 3) gapOracle).artifacts ≠
      List.range' 1 (scrape_story (some 3) gapOracle).artifacts.length := by
  refine ⟨by decide, by decide, by decide⟩

/-- `oracle` never raises a generic (caught) per-page processing error. -/
def noProcErr : PageOutcome → Prop
  | .netErr => True
  | .page _ _ e => e = false

/-- In an error-free tail of the run starting at the cursor value
`pages_scraped + 1`, the artifact list stays `[1, ..., pages_scraped]`. -/
lemma runPages_contiguous (oracle : Nat → PageOutcome)
    (hyp : ∀ p, noProcErr (oracle p)) :
    ∀ (m p0 : Nat) (s : LoopState),
      s.artifacts = List.range' 1 s.pagesScraped →
      p0 = s.pagesScraped + 1 →
      (runPages oracle (List.range' p0 m) s).artifacts =
        List.range' 1 (runPages oracle (List.range' p0 m) s).pagesScraped := by
  intro m
  induction m with
  | zero => intro p0 s h _; simpa using h
  | succ m ih =>
    intro p0 s h hp0
    rw [List.range'_succ]
    by_cases hs : s.stopped.isSome = true
    · simpa [runPages, hs] using h
    · simp only [runPages, hs, if_false]
      cases horacle : oracle p0 with
      | netErr =>
        rw [runPages_stopped_eq _ _ _ (by simp [stepPage])]
        simpa [stepPage] using h
      | page hb c e =>
        have he : e = false := by
          have := hyp p0
          rw [horacle] at this
          exact this
        subst he
        by_cases hb1 : hb = false
        · rw [runPages_stopped_eq _ _ _ (by simp [stepPage, hb1])]
          simpa [stepPage, hb1] using h
        · by_cases hdup : s.lastText = some c
          · rw [runPages_stopped_eq _ _ _ (by simp [stepPage, hb1, hdup])]
            simpa [stepPage, hb1, hdup] using h
          · by_cases hempty : pyStrip c = []
            · rw [runPages_stopped_eq _ _ _ (by simp [stepPage, hb1, hdup, hempty])]
              simpa [stepPage, hb1, hdup, hempty] using h
            · have hstep : stepPage p0 (.page hb c false) s =
                  { lastText := some c, pagesScraped := s.pagesScraped + 1,
                    artifacts := s.artifacts ++ [p0],
                    sleptSeconds := s.sleptSeconds + perPageSleep,
                    stopped := none } := by
                simp [stepPage, hb1, hdup, hempty]
              rw [if_neg (by simp), hstep]
              refine ih (p0 + 1) _ ?_ ?_
              · show s.artifacts ++ [p0] = List.range' 1 (s.pagesScraped + 1)
                rw [h, hp0, List.range'_1_concat]
                simp [Nat.add_comm]
              · simp [hp0]

/-- C3 amended. Artifact files are numbered by the loop cursor, so in every
run where no generic per-page processing error is caught, the artifacts
written are exactly `page_001.txt ... page_k.txt` for `k` = pages scraped —
numbered contiguously from 1, one per page that did not trigger a stop
condition, none for the page that triggered one. A caught per-page error
instead skips that cursor value and leaves a gap. -/
theorem artifact_numbering_contiguous_without_page_errors
    (oracle : Nat → PageOutcome) (n : Nat)
    (hyp : ∀ p, noProcErr (oracle p)) :
    (scrape_story (some n) oracle).artifacts =
      List.range' 1 (scrape_story (some n) oracle).pagesScraped := by
  exact runPages_contiguous oracle hyp (n + 2) 1 initState rfl rfl

/-- Witness for the amended C3: an error-free 1-page story writes exactly
`page_001.txt`. -/
theorem artifact_numbering_contiguous_witness :
    (scrape_story (some 1) (fun _ => .page true "a".data false)).artifacts =
      List.range' 1
        (scrape_story (some 1) (fun _ => .page true "a".data false)).pagesScraped :=
  artifact_numbering_contiguous_without_page_errors
    (fun _ => .page true "a".data false) 1 (fun _ => rfl)

/-! ### Lemmas about the string primitives -/

/-- `containsSub` agrees with list-infix containment. -/
lemma containsSub_iff (n : List Char) : ∀ h : List Char, containsSub n h = true ↔ n <:+: h := by
  intro h
  induction h with
  | nil => simp [containsSub, List.isEmpty_iff]
  | cons c cs ih =>
    simp [containsSub, Bool.or_eq_true, ih, List.infix_cons_iff]

/-- `s.split(sep)[0]` is an initial segment of `s`. -/
lemma splitFirst_pre (sep : List Char) : ∀ l : List Char, splitFirst l sep <+: l := by
  intro l
  induction l with
  | nil => exact List.nil_prefix
  | cons c cs ih =>
    rw [splitFirst]
    split_ifs with hpre
    · exact List.nil_prefix
    · exact (List.cons_prefix_cons).mpr ⟨rfl, ih⟩

/-- A non-empty separator does not occur in `s.split(sep)[0]`. -/
lemma not_infix_splitFirst (sep : List Char) (hsep : sep ≠ []) :
    ∀ l : List Char, ¬ sep <:+: splitFirst l sep := by
  intro l
  induction l with
  | nil => intro hcon; exact hsep (List.infix_nil.mp hcon)
  | cons c cs ih =>
    rw [splitFirst]
    split_ifs with hpre
    · intro hcon; exact hsep (List.infix_nil.mp hcon)
    · intro hcon
      rcases List.infix_cons_iff.mp hcon with hca | htail
      · have h2 : c :: splitFirst cs sep <+: c :: cs :=
          (List.cons_prefix_cons).mpr ⟨rfl, splitFirst_pre sep cs⟩
        exact hpre (List.isPrefixOf_iff_prefix.mpr (hca.trans h2))
      · exact ih htail

/-- Stripping yields a contiguous segment of the original string. -/
lemma pyStrip_inf (l : List Char) : pyStrip l <:+: l := by
  have h1 : (l.dropWhile pySpace).rdropWhile pySpace <+: l.dropWhile pySpace :=
    List.rdropWhile_prefix pySpace (l.dropWhile pySpace)
  have h2 : l.dropWhile pySpace <:+ l := List.dropWhile_suffix pySpace
  exact h1.isInfix.trans h2.isInfix

/-- Python `strip` is idempotent. -/
lemma pyStrip_idem (l : List Char) : pyStrip (pyStrip l) = pyStrip l := by
  have hxx : (l.dropWhile pySpace).dropWhile pySpace = l.dropWhile pySpace :=
    List.dropWhile_idempotent pySpace l
  have hpre : (l.dropWhile pySpace).rdropWhile pySpace <+: l.dropWhile pySpace :=
    List.rdropWhile_prefix pySpace (l.dropWhile pySpace)
  have hy : ((l.dropWhile pySpace).rdropWhile pySpace).dropWhile pySpace =
      (l.dropWhile pySpace).rdropWhile pySpace := by
    rw [List.dropWhile_eq_self_iff]
    intro hl
    have hlx : 0 < (l.dropWhile pySpace).length := lt_of_lt_of_le hl hpre.length_le
    have hhead := (List.dropWhile_eq_self_iff.mp hxx) hlx
    have hget : ((l.dropWhile pySpace).rdropWhile pySpace).get ⟨0, hl⟩ =
        (l.dropWhile pySpace).get ⟨0, hlx⟩ := by
      simp only [List.get_eq_getElem]
      exact hpre.getElem hl
    rw [hget]
    exact hhead
  show (((l.dropWhile pySpace).rdropWhile pySpace).dropWhile pySpace).rdropWhile pySpace =
    (l.dropWhile pySpace).rdropWhile pySpace
  rw [hy]
  exact List.rdropWhile_idempotent pySpace (l.dropWhile pySpace)

/-- `replace` leaves a string without occurrences of the pattern unchanged. -/
lemma pyReplaceFuel_id (old new : List Char) :
    ∀ (fuel : Nat) (s : List Char), ¬ old <:+: s →
      pyReplaceFuel fuel s old new = s := by
  intro fuel
  induction fuel with
  | zero => intro s _; cases s <;> rfl
  | succ fuel ih =>
    intro s hs
    cases s with
    | nil => rfl
    | cons c cs =>
      have hcond : ¬ (old ≠ [] ∧ old.isPrefixOf (c :: cs) = true) := by
        rintro ⟨_, hpre⟩
        exact hs (List.isPrefixOf_iff_prefix.mp hpre).isInfix
      rw [pyReplaceFuel, if_neg hcond]
      have htl : ¬ old <:+: cs := fun hcon => hs (List.infix_cons_iff.mpr (Or.inr hcon))
      rw [ih cs htl]

/-- `replace` leaves a string without occurrences of the pattern unchanged. -/
lemma pyReplace_id (old new s : List Char) (h : ¬ old <:+: s) :
    pyReplace s old new = s :=
  pyReplaceFuel_id old new s.length s h

/-! ### Lemmas about the delimiter loop of `extract_story_title` -/

/-- One delimiter-loop iteration yields a contiguous segment of its input. -/
lemma stepDelim_inf (t d : List Char) : stepDelim t d <:+: t := by
  unfold stepDelim
  split_ifs with h
  · exact (pyStrip_inf _).trans (splitFirst_pre d t).isInfix
  · exact List.infix_refl t

/-- After its own loop iteration, a non-empty delimiter no longer occurs. -/
lemma stepDelim_kills (t d : List Char) (hd : d ≠ []) : ¬ d <:+: stepDelim t d := by
  unfold stepDelim
  split_ifs with h
  · intro hcon
    exact not_infix_splitFirst d hd t (hcon.trans (pyStrip_inf _))
  · intro hcon
    exact h ((containsSub_iff d t).mpr hcon)

/-- The whole delimiter loop yields a contiguous segment of its input. -/
lemma foldl_stepDelim_inf (ds : List (List Char)) :
    ∀ t, List.foldl stepDelim t ds <:+: t := by
  induction ds with
  | nil => intro t; exact List.infix_refl t
  | cons d ds ih =>
    intro t
    exact (ih (stepDelim t d)).trans (stepDelim_inf t d)

/-- Every non-empty delimiter of the list is absent from the loop's output. -/
lemma foldl_stepDelim_no_delim (ds : List (List Char)) :
    ∀ (t d : List Char), d ∈ ds → d ≠ [] →
      ¬ d <:+: List.foldl stepDelim t ds := by
  induction ds with
  | nil => intro t d hd; cases hd
  | cons d0 ds ih =>
    intro t d hd hne
    rcases List.mem_cons.mp hd with rfl | hmem
    · intro hcon
      exact stepDelim_kills t d hne
        (hcon.trans (foldl_stepDelim_inf ds (stepDelim t d)))
    · exact ih (stepDelim t d0) d hmem hne

/-- The delimiter loop is the identity when no delimiter occurs. -/
lemma foldl_stepDelim_fixed (ds : List (List Char)) :
    ∀ t, (∀ d ∈ ds, ¬ d <:+: t) → List.foldl stepDelim t ds = t := by
  induction ds with
  | nil => intro t _; rfl
  | cons d0 ds ih =>
    intro t h
    have h0 : stepDelim t d0 = t := by
      unfold stepDelim
      rw [if_neg]
      intro hcon
      exact h d0 (List.mem_cons_self _ _) ((containsSub_iff _ _).mp hcon)
    rw [List.foldl_cons, h0]
    exact ih t (fun d hd => h d (List.mem_cons_of_mem _ hd))

/-- One delimiter-loop iteration preserves being already stripped. -/
lemma stepDelim_strip_fixed (t d : List Char) (h : pyStrip t = t) :
    pyStrip (stepDelim t d) = stepDelim t d := by
  unfold stepDelim
  split_ifs
  · exact pyStrip_idem _
  · exact h

/-- The delimiter loop preserves being already stripped. -/
lemma foldl_stepDelim_strip_fixed (ds : List (List Char)) :
    ∀ t, pyStrip t = t →
      pyStrip (List.foldl stepDelim t ds) = List.foldl stepDelim t ds := by
  induction ds with
  | nil => intro t h; exact h
  | cons d ds ih => intro t h; exact ih _ (stepDelim_strip_fixed t d h)

/-- The extracted title is already stripped. -/
lemma extract_strip_fixed (s : List Char) :
    pyStrip (extract_story_title s) = extract_story_title s :=
  foldl_stepDelim_strip_fixed delimiters _ (pyStrip_idem _)

/-- All four delimiters of the source are non-empty strings. -/
lemma delimiters_ne_nil : ∀ d ∈ delimiters, d ≠ [] := by decide

/-- No delimiter occurs in an extracted title. -/
lemma extract_no_delim (s : List Char) :
    ∀ d ∈ delimiters, ¬ d <:+: extract_story_title s := fun d hd =>
  foldl_stepDelim_no_delim delimiters _ d hd (delimiters_ne_nil d hd)

/-! ### C4: which separators does title extraction apply? -/

/-- C4 counterexample. On `"aページb|c"` the claimed truncate-at-one-separator
rule (priority order finds `"|"` first and stops) yields `"aページb"`, but the
code keeps scanning and also applies `"ページ"`, yielding `"a"`. -/
theorem title_extraction_single_separator_counterexample :
    extract_story_title "aページb|c".data = "a".data ∧
    extract_title_spec "aページb|c".data = "aページb".data ∧
    extract_story_title "aページb|c".data ≠ extract_title_spec "aページb|c".data :=
  ⟨by decide, by decide, by decide⟩

/-- C4 amended. Title extraction scans the separators in the fixed priority
order and truncates at the first occurrence of EVERY separator found in the
current (possibly already truncated) title — not just the first one found —
so the extracted title contains no occurrence of any separator. -/
theorem title_extraction_applies_all_separators
    (s d : List Char) (hd : d ∈ delimiters) :
    ¬ d <:+: extract_story_title s :=
  extract_no_delim s d hd

/-- Witness for the amended C4 at a concrete title and separator. -/
theorem title_extraction_applies_all_separators_witness :
    ¬ "|".data <:+: extract_story_title "a|bページc".data :=
  title_extraction_applies_all_separators "a|bページc".data "|".data (by decide)

/-! ### C8: is title extraction idempotent? -/

/-- C8 counterexample. `"【本【本文】文】"` extracts to `"【本文】"` (the single
replace pass recreates the marker from overlapping fragments), and a second
application extracts that to `""` — so extract ∘ extract ≠ extract. -/
theorem title_extraction_idempotent_counterexample :
    extract_story_title "【本【本文】文】".data = "【本文】".data ∧
    extract_story_title (extract_story_title "【本【本文】文】".data) = [] ∧
    extract_story_title (extract_story_title "【本【本文】文】".data) ≠
      extract_story_title "【本【本文】文】".data :=
  ⟨by decide, by decide, by decide⟩

/-- C8 amended. Title extraction is idempotent on every input whose extracted
title does not contain the marker `【本文】`: the only way a second
application can differ is the marker-removal pass recreating the marker
from overlapping fragments. -/
theorem title_extraction_idempotent_unless_marker
    (s : List Char) (h : containsSub marker (extract_story_title s) = false) :
    extract_story_title (extract_story_title s) = extract_story_title s := by
  have hni : ¬ marker <:+: extract_story_title s := by
    intro hcon
    rw [(containsSub_iff _ _).mpr hcon] at h
    cases h
  have h1 : pyReplace (extract_story_title s) marker [] = extract_story_title s :=
    pyReplace_id marker [] _ hni
  show delimiters.foldl stepDelim
      (pyStrip (pyReplace (extract_story_title s) marker [])) =
    extract_story_title s
  rw [h1, extract_strip_fixed]
  exact foldl_stepDelim_fixed delimiters _ (extract_no_delim s)

/-- Witness for the amended C8 on a marker-free title. -/
theorem title_extraction_idempotent_unless_marker_witness :
    extract_story_title (extract_story_title "Story|Name".data) =
      extract_story_title "Story|Name".data :=
  title_extraction_idempotent_unless_marker "Story|Name".data (by decide)

/-! ### C6: image resolution degrades to a placeholder, never raises -/

/-- C6. `download_image` is total over every oracle outcome — the enclosing
`except Exception` means no failure reaches the caller — and it returns
either the resolved filename or the failure placeholder built from the
original basename: the filename whenever the file is already cached or the
fetch and write both succeed, and the placeholder exactly when a fetch or a
write was attempted and failed. -/
theorem download_image_total_with_placeholder
    (fetchOk writeOk : Bool) (url : List Char) (fs : List (List Char)) :
    ((download_image fetchOk writeOk url fs).1 = resolvedFilename url ∨
      (download_image fetchOk writeOk url fs).1 = failedPlaceholder url) ∧
    (resolvedFilename url ∈ fs →
      (download_image fetchOk writeOk url fs).1 = resolvedFilename url) ∧
    (fetchOk = true → writeOk = true →
      (download_image fetchOk writeOk url fs).1 = resolvedFilename url) ∧
    (resolvedFilename url ∉ fs →
      (fetchOk = false ∨ writeOk = false) →
      (download_image fetchOk writeOk url fs).1 = failedPlaceholder url) := by
  by_cases hmem : resolvedFilename url ∈ fs
  · simp [download_image, hmem]
  · cases fetchOk <;> cases writeOk <;> simp [download_image, hmem]

/-- Witness for C6: a failed fetch of `http://e/img.png?x=1` returns the
placeholder carrying the original basename (query string included). -/
theorem download_image_total_with_placeholder_witness :
    (download_image false true "http://e/img.png?x=1".data []).1 =
      failedPlaceholder "http://e/img.png?x=1".data :=
  (download_image_total_with_placeholder false true "http://e/img.png?x=1".data
    []).2.2.2 (by decide) (Or.inl rfl)

/-! ### C7: image resolution is idempotent within a run -/

/-- C7. Resolving the same URL twice with a working network and filesystem:
both calls return the same filename — the basename of the URL path with the
query string stripped — and the pair of calls performs exactly one network
fetch when the file was not yet cached (the second call finds the file
written by the first and skips the network), and zero fetches when it
already was. -/
theorem download_image_idempotent
    (url : List Char) (fs : List (List Char)) :
    (download_image true true url fs).1 =
      (download_image true true url
        (download_image true true url fs).2.1).1 ∧
    (download_image true true url fs).1 = resolvedFilename url ∧
    (resolvedFilename url ∉ fs →
      (download_image true true url fs).2.2 +
        (download_image true true url
          (download_image true true url fs).2.1).2.2 = 1) ∧
    (resolvedFilename url ∈ fs →
      (download_image true true url fs).2.2 +
        (download_image true true url
          (download_image true true url fs).2.1).2.2 = 0) := by
  by_cases hmem : resolvedFilename url ∈ fs
  · simp [download_image, hmem]
  · have hsnd : (download_image true true url fs).2.1 = resolvedFilename url :: fs := by
      simp [download_image, hmem]
    rw [hsnd]
    have hmem2 : resolvedFilename url ∈ resolvedFilename url :: fs :=
      List.mem_cons_self _ _
    simp [download_image, hmem, hmem2]

/-- Witness for C7: a fresh folder, one fetch across both resolutions, same
filename `a.png` both times. -/
theorem download_image_idempotent_witness :
    (download_image true true "http://e/a.png?v=2".data []).1 =
      (download_image true true "http://e/a.png?v=2".data
        (download_image true true "http://e/a.png?v=2".data []).2.1).1 ∧
    (download_image true true "http://e/a.png?v=2".data []).1 =
      resolvedFilename "http://e/a.png?v=2".data ∧
    (download_image true true "http://e/a.png?v=2".data []).2.2 +
      (download_image true true "http://e/a.png?v=2".data
        (download_image true true "http://e/a.png?v=2".data []).2.1).2.2 = 1 := by
  have h := download_image_idempotent "http://e/a.png?v=2".data []
  exact ⟨h.1, h.2.1, h.2.2.1 (by decide)⟩

/-! ### C5: the `--delay` flag -/

/-- A page oracle for a healthy one-page story: every page parses with the
same non-empty content, so the run writes page 1 and stops on page 2 with
duplicate content. -/
def constPageOracle : Nat → PageOutcome := fun _ => .page true "a".data false

/-- C5 (code bug exhibit). argparse parses `--delay 2` into `args.delay = 2`,
but `scrape_story` is called without it and sleeps the literal `0.5`
seconds after each written page: on a run that writes one page the total
sleep is `0.5`, not the `2` seconds the flag promised, and the run's
observable result is identical for any two `--delay` values. -/
theorem delay_flag_parsed_but_unused :
    parsedDelay (some 2) = 2 ∧
    (runPages constPageOracle (pageList 0) initState).pagesScraped = 1 ∧
    (runPages constPageOracle (pageList 0) initState).sleptSeconds = perPageSleep ∧
    perPageSleep ≠ parsedDelay (some 2) ∧
    mainRun (some 2) (some 0) constPageOracle =
      mainRun (some 907) (some 0) constPageOracle := by
  have hrun : runPages constPageOracle (pageList 0) initState =
      { lastText := some "a".data, pagesScraped := 1, artifacts := [1],
        sleptSeconds := 0 + perPageSleep, stopped := some .duplicateContent } := rfl
  refine ⟨by norm_num [parsedDelay, defaultDelay], by rw [hrun], by rw [hrun]; rw [zero_add],
    by norm_num [perPageSleep, parsedDelay, defaultDelay], rfl⟩

end Estar
